import Mathlib

/-!
# Verification of the agent-playground chat client

A shallow embedding of the context-window management and
session-persistence subsystem of the `agent` command-line chat client
(packages `internal/model`, `internal/session`, `internal/chat`),
together with proofs of the testable properties stated in its design
document.

Modelling conventions:

* Go `int` values are embedded as `Int`; list/slice lengths are `Nat`
  and coerced where the Go code mixes them.
* `time.Time` values are embedded as `Int` instants (Go serializes
  `time.Time` through RFC 3339 text, which is injective on instants at
  nanosecond precision, so an instant survives a marshal/unmarshal
  round trip unchanged; the embedding carries the instant itself).
* Go strings are embedded as Lean `String` except in
  `truncateContent`, where the Go code indexes and slices the raw
  UTF-8 bytes of the string; there the content is embedded as its byte
  sequence (`List Nat`).
* `encoding/json` marshalling is embedded at the JSON-document level:
  a Go struct is converted to a `Json` value and back.  The textual
  printing/parsing of a `Json` document is Go standard-library code,
  external to this repository.
* The filesystem is embedded as an association list from file path to
  the JSON document stored there; `os.WriteFile` prepends (overwrite
  semantics), reading looks up the most recent write.
* Terminal output (`fmt.Print...`) is display-only and has no effect
  on any session state; it is dropped from the embedding.
-/

namespace AgentPlayground

/-! ## internal/model: the Message value type -/

/-- `model.RoleUser` constant. -/
def RoleUser : String := "user"

/-- `model.RoleAssistant` constant. -/
def RoleAssistant : String := "assistant"

/-- `model.Message`: one conversation turn (role, content, timestamp).
The `Timestamp` field carries the instant as an integer (see module
conventions). -/
structure Message where
  Role : String
  Content : String
  Timestamp : Int
  deriving Repr, DecidableEq

/-- `(*Message).IsUser` from `internal/model`. -/
def Message.IsUser (m : Message) : Bool := m.Role == RoleUser

/-- The sentinel error `errors.ErrEmptyContent` used by `model.NewMessage`. -/
inductive ModelError where
  | emptyContent
  deriving Repr, DecidableEq

/-- `model.NewMessage(role, content)`: rejects empty content with
`ErrEmptyContent`, otherwise builds a message stamped `now`. -/
def NewMessage (role content : String) (now : Int) : Except ModelError Message :=
  if content = "" then Except.error ModelError.emptyContent
  else Except.ok ⟨role, content, now⟩

/-! ## internal/config: the configuration object

Only the fields read by the embedded functions are carried; the
remaining fields (model name, temperature, think flag, prompts) do not
influence any verified property. -/

/-- `config.Config`, restricted to the fields the session store and
context builder read. -/
structure Config where
  CtxDir : String
  CtxFileExt : String
  CtxSizeLimit : Int
  deriving Repr, DecidableEq

/-! ## internal/session: name sanitization and file paths -/

/-- `strings.ReplaceAll` specialised to a single-character pattern and
a single-character replacement, acting on the character sequence of
the string.  (All patterns used by `sanitizeUserName` are single ASCII
characters, and an ASCII byte never occurs inside the UTF-8 encoding
of another character, so byte-level replacement and character-level
replacement agree.) -/
def replaceAll (s : List Char) (pattern replacement : Char) : List Char :=
  s.map fun c => if c = pattern then replacement else c

/-- `session.sanitizeUserName`, the chain of ten `strings.ReplaceAll`
calls in source order, on the character sequence. -/
def sanitizeUserNameChars (userName : List Char) : List Char :=
  let s := replaceAll userName ' ' '_'
  let s := replaceAll s '/' '_'
  let s := replaceAll s '\\' '_'
  let s := replaceAll s ':' '_'
  let s := replaceAll s '*' '_'
  let s := replaceAll s '?' '_'
  let s := replaceAll s '\"' '_'
  let s := replaceAll s '<' '_'
  let s := replaceAll s '>' '_'
  let s := replaceAll s '|' '_'
  s

/-- `session.sanitizeUserName` on `String`. -/
def sanitizeUserName (userName : String) : String :=
  String.mk (sanitizeUserNameChars userName.data)

/-- The per-character substitution that `sanitizeUserName` performs:
the ten filesystem-unsafe characters map to underscore, everything
else is unchanged. -/
def sanitizeChar (c : Char) : Char :=
  if c ∈ [' ', '/', '\\', ':', '*', '?', '\"', '<', '>', '|'] then '_' else c

/-- `session.getSessionFilePath`: joins the context directory with the
sanitized user name and the configured extension
(`filepath.Join(dir, name+ext)` on a nonempty `dir`). -/
def getSessionFilePath (userName : String) (cfg : Config) : String :=
  cfg.CtxDir ++ "/" ++ sanitizeUserName userName ++ cfg.CtxFileExt

/-! ## internal/session: the session record and its JSON round trip -/

/-- `session.ChatSession`.  The `Cfg` field carries the json tag `"-"`
(never serialized) and is re-attached by the loader from the live
configuration; it is therefore not part of the persisted record and is
passed separately in the embedding. -/
structure ChatSession where
  UserName : String
  Messages : List Message
  Created : Int
  Updated : Int
  deriving Repr, DecidableEq

/-- A JSON document, the target of `encoding/json` marshalling.
Timestamp leaves carry the instant (see module conventions). -/
inductive Json where
  | null : Json
  | bool : Bool → Json
  | num : Int → Json
  | str : String → Json
  | arr : List Json → Json
  | obj : List (String × Json) → Json
  deriving Repr

/-- Association-list lookup (first match wins), used both for JSON
object fields and for the file-store embedding. -/
def lookupKey {α : Type} : List (String × α) → String → Option α
  | [], _ => none
  | (k, v) :: rest, key => if k = key then some v else lookupKey rest key

/-- Decoding a JSON string leaf, as `encoding/json` does for a `string`
struct field: a missing field leaves the zero value `""`, a present
field must be a string. -/
def strField (fields : List (String × Json)) (key : String) : Option String :=
  match lookupKey fields key with
  | none => some ""
  | some (Json.str s) => some s
  | some _ => none

/-- Decoding a JSON timestamp leaf, as `encoding/json` does for a
`time.Time` struct field: a missing field leaves the zero instant, a
present field must be a timestamp leaf. -/
def numField (fields : List (String × Json)) (key : String) : Option Int :=
  match lookupKey fields key with
  | none => some 0
  | some (Json.num n) => some n
  | some _ => none

/-- Decoding a JSON array field, as `encoding/json` does for a slice
struct field: a missing field leaves the nil slice. -/
def arrField (fields : List (String × Json)) (key : String) : Option (List Json) :=
  match lookupKey fields key with
  | none => some []
  | some (Json.arr l) => some l
  | some _ => none

/-- `json.Marshal` of one `model.Message` (tags `role`, `content`,
`timestamp`). -/
def messageToJson (m : Message) : Json :=
  Json.obj [("role", Json.str m.Role),
            ("content", Json.str m.Content),
            ("timestamp", Json.num m.Timestamp)]

/-- `json.Unmarshal` into one `model.Message`. -/
def messageFromJson (j : Json) : Option Message :=
  match j with
  | Json.obj fields => do
      let role ← strField fields "role"
      let content ← strField fields "content"
      let ts ← numField fields "timestamp"
      some ⟨role, content, ts⟩
  | _ => none

/-- `json.MarshalIndent` of a `session.ChatSession` (tags `username`,
`messages`, `created`, `updated`; `Cfg` is tagged `-` and omitted).
Indentation is cosmetic and absent at the document level. -/
def sessionToJson (s : ChatSession) : Json :=
  Json.obj [("username", Json.str s.UserName),
            ("messages", Json.arr (s.Messages.map messageToJson)),
            ("created", Json.num s.Created),
            ("updated", Json.num s.Updated)]

/-- `json.Unmarshal` of the `messages` array: element-wise decoding,
failing if any element fails. -/
def decodeMessages : List Json → Option (List Message)
  | [] => some []
  | j :: rest => do
      let m ← messageFromJson j
      let ms ← decodeMessages rest
      some (m :: ms)

/-- `json.Unmarshal` into a `session.ChatSession`. -/
def sessionFromJson (j : Json) : Option ChatSession :=
  match j with
  | Json.obj fields => do
      let username ← strField fields "username"
      let msgsJson ← arrField fields "messages"
      let msgs ← decodeMessages msgsJson
      let created ← numField fields "created"
      let updated ← numField fields "updated"
      some ⟨username, msgs, created, updated⟩
  | _ => none

/-- The filesystem under the context directory: path ↦ stored JSON
document, most recent write first. -/
def FileStore : Type := List (String × Json)

/-- `os.WriteFile`: overwrites whatever was at `path`. -/
def writeFile (store : FileStore) (path : String) (doc : Json) : FileStore :=
  (path, doc) :: store

/-- `os.Stat` + `os.ReadFile`: `none` when no file exists at `path`. -/
def readFile (store : FileStore) (path : String) : Option Json :=
  lookupKey store path

/-- The error classes surfaced by the session store
(`errors.ErrFileRead` / `errors.ErrFileParse`).  In the store
embedding a present file is always readable, so only the parse error
is reachable. -/
inductive SessionError where
  | fileRead
  | fileParse
  deriving Repr, DecidableEq

/-- `(*ChatSession).SaveSession`: serializes the full session and
writes it to the resolved path. -/
def SaveSession (store : FileStore) (sess : ChatSession) (cfg : Config) : FileStore :=
  writeFile store (getSessionFilePath sess.UserName cfg) (sessionToJson sess)

/-- `session.loadOrCreateSession`: a fresh session with no messages
and `created = updated = now` when no file exists, otherwise the
deserialized file content (malformed content surfaces a parse error).
The loader re-attaches the live configuration, which is not part of
the persisted record. -/
def loadOrCreateSession (store : FileStore) (userName : String) (cfg : Config)
    (now : Int) : Except SessionError ChatSession :=
  let filePath := getSessionFilePath userName cfg
  match readFile store filePath with
  | none => Except.ok ⟨userName, [], now, now⟩
  | some data =>
      match sessionFromJson data with
      | some sess => Except.ok sess
      | none => Except.error SessionError.fileParse

/-! ## internal/chat: windowing, context building, the send path -/

/-- `(*Chat).calculateStartIndex(totalMessages, count)`:
`start := totalMessages - count; if start < 0 then 0`. -/
def calculateStartIndex (totalMessages count : Int) : Int :=
  let start := totalMessages - count
  if start < 0 then 0 else start

/-- `(*Chat).truncateContent(content, maxLength)` on the raw UTF-8
bytes of the Go string: `len` and the slice `content[:maxLength]` in
Go index bytes, not characters.  `46` is the byte of `.`, so
`[46, 46, 46]` is the appended `"..."`. -/
def truncateContent (content : List Nat) (maxLength : Nat) : List Nat :=
  if maxLength < content.length then content.take maxLength ++ [46, 46, 46]
  else content

/-- Is `b` a UTF-8 continuation byte (`0x80..0xBF`)? -/
def isContByte (b : Nat) : Bool := 128 ≤ b && b < 192

/-- A byte sequence is well-formed UTF-8: every lead byte is followed
by exactly the continuation bytes its class demands.  Used to express
"never splits inside an encoded multi-byte character". -/
def utf8Valid : List Nat → Bool
  | [] => true
  | b :: rest =>
    if b < 128 then utf8Valid rest
    else if b < 194 then false
    else if b < 224 then
      match rest with
      | c1 :: rest2 => isContByte c1 && utf8Valid rest2
      | [] => false
    else if b < 240 then
      match rest with
      | c1 :: c2 :: rest3 => isContByte c1 && isContByte c2 && utf8Valid rest3
      | _ => false
    else if b < 245 then
      match rest with
      | c1 :: c2 :: c3 :: rest4 =>
          isContByte c1 && isContByte c2 && isContByte c3 && utf8Valid rest4
      | _ => false
    else false

/-- One prior turn as rendered inside the loop of
`(*Chat).buildContextPrompt`. -/
def renderTurn (msg : Message) : String :=
  if msg.IsUser then "Пользователь: " ++ msg.Content ++ "\n"
  else "Ассистент: " ++ msg.Content ++ "\n"

/-- `(*Chat).buildContextPrompt(messages)`: empty string on an empty
history; otherwise a localized header, the prior turns from the window
start up to (excluding) the current message, and the current (last)
message under a "current question" label.  The loop
`for i := start; i < len-1` renders exactly
`(messages.take (len-1)).drop start`. -/
def buildContextPrompt (cfg : Config) (messages : List Message) : String :=
  match messages.getLast? with
  | none => ""
  | some current =>
      let start := (calculateStartIndex (messages.length : Int) cfg.CtxSizeLimit).toNat
      let prior := (messages.take (messages.length - 1)).drop start
      "Предыдущий контекст беседы:\n"
        ++ String.join (prior.map renderTurn)
        ++ "\nТекущий вопрос: " ++ current.Content

/-- One chunk delivered to the streaming callback of
`api.Client.Generate`: a reasoning/thinking fragment and an answer
fragment (either may be empty). -/
structure GenerateResponse where
  Thinking : String
  Response : String
  deriving Repr, DecidableEq

/-- The outcome of one `Generate` call: the chunks delivered to the
callback, in arrival order, and the terminal error (`none` on clean
completion). -/
structure StreamOutcome where
  chunks : List GenerateResponse
  error : Option String
  deriving Repr, DecidableEq

/-- The answer buffer accumulated by the callback in
`(*Chat).sendMessage`: only `resp.Response` fragments are written to
the `strings.Builder`; `resp.Thinking` fragments are printed dimmed
and never accumulated. -/
def collectResponse (chunks : List GenerateResponse) : String :=
  String.join (chunks.map GenerateResponse.Response)

/-- The error classes surfaced by the chat loop
(`errors.ErrNoMessages`, `errors.ErrMessageSend` wrapping the stream
error's text). -/
inductive ChatError where
  | errNoMessages
  | errMessageSend (cause : String)
  deriving Repr, DecidableEq

/-- `(*Chat).addAIResponse(response)`: appends an assistant message
built from the accumulated buffer and bumps `Updated`. -/
def addAIResponse (sess : ChatSession) (response : String) (now : Int) : ChatSession :=
  { sess with Messages := sess.Messages ++ [⟨RoleAssistant, response, now⟩],
              Updated := now }

/-- `(*Chat).sendMessage(message)` restricted to its effect on the
session and its returned error.  An empty history returns
`ErrNoMessages`; a stream error is wrapped as `ErrMessageSend` and the
session is left untouched (the early return skips `addAIResponse`); on
clean completion the accumulated answer is appended.  The prompt built
from the history is `buildContextPrompt` (verified separately); the
disk write of `autoSave` leaves the session value unchanged and is
embedded by `shouldAutoSave`. -/
def sendMessage (sess : ChatSession) (message : List Message)
    (outcome : StreamOutcome) (now : Int) : ChatSession × Option ChatError :=
  if message.isEmpty then (sess, some ChatError.errNoMessages)
  else
    match outcome.error with
    | some e => (sess, some (ChatError.errMessageSend e))
    | none => (addAIResponse sess (collectResponse outcome.chunks) now, none)

/-- `(*Chat).processUserInput(input)`: appends the user message and
bumps `Updated` before issuing the request, then runs the send path on
the full message sequence; a send failure is returned to the loop with
the user message still in the history. -/
def processUserInput (sess : ChatSession) (input : String)
    (outcome : StreamOutcome) (now : Int) : ChatSession × Option ChatError :=
  let sess1 : ChatSession :=
    { sess with Messages := sess.Messages ++ [⟨RoleUser, input, now⟩],
                Updated := now }
  sendMessage sess1 sess1.Messages outcome now

/-- The auto-save trigger of `(*Chat).autoSave`:
`msgCount == 2 || msgCount%4 == 0`. -/
def shouldAutoSave (msgCount : Nat) : Bool :=
  msgCount == 2 || msgCount % 4 == 0

/-- The message counts at which `autoSave` runs during a
single-session run of `turns` completed turns starting from an empty
session: each turn appends the user message and the assistant message,
so `autoSave` observes the counts `2, 4, ..., 2*turns`; the saves
happen at the counts this list retains. -/
def autoSaveCountsInRun (turns : Nat) : List Nat :=
  ((List.range turns).map fun k => 2 * (k + 1)).filter fun n => shouldAutoSave n

/-- Go 64-bit `int` subtraction: two's-complement wraparound into
`[-2^63, 2^63)`, written with an explicit `% 2^64`. -/
def goIntSub (a b : Int) : Int :=
  (a - b + 9223372036854775808) % 18446744073709551616 - 9223372036854775808

/-- `(*Chat).calculateStartIndex(totalMessages, count)` again, at
machine precision: the subtraction `totalMessages - count` is Go
64-bit `int` arithmetic and wraps on overflow (`count = math.MinInt`
makes `total - count` wrap negative), before the clamp to `0`.  The
unbounded `calculateStartIndex` above agrees with this one whenever
the difference is representable (`calculateStartIndex_agrees`); the
display path below quantifies over all negative counts, where the
wraparound is reachable, so it uses this embedding. -/
def calculateStartIndexInt64 (totalMessages count : Int) : Int :=
  let start := goIntSub totalMessages count
  if start < 0 then 0 else start

/-- `(*Chat).DisplayRecentMessages(messages, count)` restricted to the
messages it displays: the loop `for i := start; i < len(messages)`
displays exactly `messages.drop start`. -/
def DisplayRecentMessages (messages : List Message) (count : Int) : List Message :=
  messages.drop (calculateStartIndexInt64 (messages.length : Int) count).toNat

/-! ## Theorems -/

/-- C1: For every non-negative `total` and `limit`,
`calculateStartIndex(total, limit) = max(0, total - limit)`; in
particular it maps `(10,4)` to `6`, `(4,4)` to `0`, `(2,4)` to `0`,
and `(10,0)` to `10` (a zero limit yields start index = total, an
empty window). -/
theorem calculateStartIndex_eq_max (total limit : Int)
    (_htotal : 0 ≤ total) (_hlimit : 0 ≤ limit) :
    calculateStartIndex total limit = max 0 (total - limit) ∧
    calculateStartIndex 10 4 = 6 ∧ calculateStartIndex 4 4 = 0 ∧
    calculateStartIndex 2 4 = 0 ∧ calculateStartIndex 10 0 = 10 := by
  refine ⟨?_, by decide, by decide, by decide, by decide⟩
  simp only [calculateStartIndex]
  split <;> omega

/-- C1 witness: the characterization instantiated at `(10, 4)`. -/
theorem calculateStartIndex_eq_max_witness :
    calculateStartIndex 10 4 = max 0 (10 - 4) ∧
    calculateStartIndex 10 4 = 6 ∧ calculateStartIndex 4 4 = 0 ∧
    calculateStartIndex 2 4 = 0 ∧ calculateStartIndex 10 0 = 10 :=
  calculateStartIndex_eq_max 10 4 (by decide) (by decide)

/-- The two embeddings of `calculateStartIndex` agree whenever the
difference `total - count` is representable in 64-bit `int`; the
unbounded one is only ever applied (C1, C4) under hypotheses that keep
the difference representable. -/
theorem calculateStartIndex_agrees (total count : Int)
    (hlo : -9223372036854775808 ≤ total - count)
    (hhi : total - count ≤ 9223372036854775807) :
    calculateStartIndexInt64 total count = calculateStartIndex total count := by
  have hsub : goIntSub total count = total - count := by
    simp only [goIntSub]
    omega
  simp only [calculateStartIndexInt64, calculateStartIndex, hsub]

/-- C10 counterexample: the claim fails at `count = math.MinInt`.
There `total - count` wraps: with one message the Go subtraction
`1 - math.MinInt` overflows to `1 - 2^63 < 0`, the clamp takes the
start index to `0` — not `total - count`, not greater than `total` —
and `DisplayRecentMessages` displays the full history rather than an
empty window. -/
theorem DisplayRecentMessages_minInt_counterexample :
    calculateStartIndexInt64 1 (-9223372036854775808) = 0 ∧
    ¬ (1 : Int) < calculateStartIndexInt64 1 (-9223372036854775808) ∧
    DisplayRecentMessages [⟨RoleUser, "hi", 0⟩] (-9223372036854775808)
      = [⟨RoleUser, "hi", 0⟩] := by
  refine ⟨by decide, by decide, by decide⟩

/-- C10 (amended): for every negative `count` such that
`total - count` does not overflow 64-bit `int`
(`total - count ≤ math.MaxInt`), `calculateStartIndex` returns
`total - count`, which exceeds `total`, so the display loop of
`DisplayRecentMessages` runs zero iterations: such a negative window
limit yields an empty window, not the full history.  (At
`count = math.MinInt` the subtraction wraps and the full history is
displayed — see the counterexample.) -/
theorem DisplayRecentMessages_negative_count (messages : List Message)
    (count : Int) (hneg : count < 0)
    (hrep : (messages.length : Int) - count ≤ 9223372036854775807) :
    calculateStartIndexInt64 (messages.length : Int) count
      = (messages.length : Int) - count ∧
    (messages.length : Int) < calculateStartIndexInt64 (messages.length : Int) count ∧
    DisplayRecentMessages messages count = [] := by
  have hsub : goIntSub (messages.length : Int) count
      = (messages.length : Int) - count := by
    simp only [goIntSub]
    omega
  have h1 : calculateStartIndexInt64 (messages.length : Int) count
      = (messages.length : Int) - count := by
    simp only [calculateStartIndexInt64, hsub]
    omega
  refine ⟨h1, by omega, ?_⟩
  simp only [DisplayRecentMessages]
  apply List.drop_eq_nil_of_le
  omega

/-- C10 witness: a one-message history with `count = -1` displays
nothing. -/
theorem DisplayRecentMessages_negative_count_witness :
    DisplayRecentMessages [⟨RoleUser, "hi", 0⟩] (-1) = [] :=
  (DisplayRecentMessages_negative_count [⟨RoleUser, "hi", 0⟩] (-1)
    (by decide) (by decide)).2.2

/-- C3: the auto-save trigger fires exactly at a total message count
of `2` or a count divisible by `4`; over a single-session run of
`turns` completed turns (counts `2, 4, ..., 2*turns`) the saves
happen exactly at `2, 4, 8, 12, 16, ...`, and never at count `6`. -/
theorem autoSave_policy (n turns : Nat) :
    (shouldAutoSave n = true ↔ (n = 2 ∨ n % 4 = 0)) ∧
    (n ∈ autoSaveCountsInRun turns ↔
      (n ≤ 2 * turns ∧ (n = 2 ∨ (4 ≤ n ∧ n % 4 = 0)))) ∧
    shouldAutoSave 6 = false ∧ 6 ∉ autoSaveCountsInRun turns := by
  have hiff : ∀ m : Nat, shouldAutoSave m = true ↔ (m = 2 ∨ m % 4 = 0) := by
    intro m
    simp [shouldAutoSave]
  have hmem : ∀ m : Nat, m ∈ autoSaveCountsInRun turns ↔
      (m ≤ 2 * turns ∧ (m = 2 ∨ (4 ≤ m ∧ m % 4 = 0))) := by
    intro m
    simp only [autoSaveCountsInRun, List.mem_filter, List.mem_map, List.mem_range, hiff]
    constructor
    · rintro ⟨⟨k, hk, rfl⟩, hsave⟩
      omega
    · rintro ⟨hle, hcase⟩
      exact ⟨⟨m / 2 - 1, by omega, by omega⟩, by omega⟩
  refine ⟨hiff n, hmem n, by decide, ?_⟩
  rw [hmem 6]
  omega

/-- C7 helper: the chain of ten single-character `ReplaceAll` calls is
the pointwise substitution `sanitizeChar`. -/
theorem sanitizeUserNameChars_eq_map (l : List Char) :
    sanitizeUserNameChars l = l.map sanitizeChar := by
  simp only [sanitizeUserNameChars, replaceAll, List.map_map]
  apply List.map_congr_left
  intro c _
  by_cases h : c ∈ [' ', '/', '\\', ':', '*', '?', '\"', '<', '>', '|']
  · fin_cases h <;> decide
  · simp only [List.mem_cons, List.not_mem_nil, or_false, not_or] at h
    obtain ⟨n1, n2, n3, n4, n5, n6, n7, n8, n9, n10⟩ := h
    simp [Function.comp, sanitizeChar, n1, n2, n3, n4, n5, n6, n7, n8, n9, n10]

/-- C7 helper: the pointwise substitution is idempotent (underscore is
not itself a replaced character). -/
theorem sanitizeChar_idem (c : Char) :
    sanitizeChar (sanitizeChar c) = sanitizeChar c := by
  by_cases h : c ∈ [' ', '/', '\\', ':', '*', '?', '\"', '<', '>', '|']
  · fin_cases h <;> decide
  · simp [sanitizeChar, h]

/-- C7: user-name sanitization is total and idempotent: it is the
character-wise map replacing exactly the ten filesystem-unsafe
characters by underscore, applying it twice equals applying it once,
and every other character (including non-Latin scripts) passes
through unchanged. -/
theorem sanitizeUserName_spec (s : String) :
    sanitizeUserName s = String.mk (s.data.map sanitizeChar) ∧
    sanitizeUserName (sanitizeUserName s) = sanitizeUserName s ∧
    ∀ c : Char, c ∉ [' ', '/', '\\', ':', '*', '?', '\"', '<', '>', '|'] →
      sanitizeChar c = c := by
  refine ⟨by simp [sanitizeUserName, sanitizeUserNameChars_eq_map], ?_, ?_⟩
  · have hcomp : (sanitizeChar ∘ sanitizeChar) = sanitizeChar := funext sanitizeChar_idem
    simp [sanitizeUserName, sanitizeUserNameChars_eq_map, List.map_map, hcomp]
  · intro c hc
    simp [sanitizeChar, hc]

/-- C7 witness: sanitization applied twice to a concrete Cyrillic name
with unsafe characters equals one application, and a Cyrillic letter
is untouched. -/
theorem sanitizeUserName_spec_witness :
    sanitizeUserName (sanitizeUserName "Иван Иванов/demo:1") =
      sanitizeUserName "Иван Иванов/demo:1" ∧ sanitizeChar 'я' = 'я' :=
  ⟨(sanitizeUserName_spec "Иван Иванов/demo:1").2.1,
   (sanitizeUserName_spec "x").2.2 'я' (by decide)⟩

/-- C2 helper: one message survives the JSON round trip. -/
theorem messageFromJson_messageToJson (m : Message) :
    messageFromJson (messageToJson m) = some m := by
  simp [messageFromJson, messageToJson, strField, numField, lookupKey]

/-- C2 helper: a message list survives the JSON round trip
element-wise. -/
theorem decodeMessages_map_messageToJson (msgs : List Message) :
    decodeMessages (msgs.map messageToJson) = some msgs := by
  induction msgs with
  | nil => rfl
  | cons m rest ih =>
      simp [decodeMessages, messageFromJson_messageToJson, ih]

/-- C2 helper: a session survives the JSON round trip. -/
theorem sessionFromJson_sessionToJson (s : ChatSession) :
    sessionFromJson (sessionToJson s) = some s := by
  simp [sessionFromJson, sessionToJson, strField, numField, arrField,
    lookupKey, decodeMessages_map_messageToJson]

/-- C2: round trip — serializing a session with `SaveSession` and then
loading it via `loadOrCreateSession` under the same user name and
configuration yields the session back exactly: the same messages in
the same order with identical role, content and timestamp for each
(so timestamps are preserved at least to second precision). -/
theorem SaveSession_loadOrCreateSession_roundtrip (store : FileStore)
    (sess : ChatSession) (cfg : Config) (now : Int) :
    loadOrCreateSession (SaveSession store sess cfg) sess.UserName cfg now
      = Except.ok sess := by
  simp [loadOrCreateSession, SaveSession, writeFile, readFile, lookupKey,
    sessionFromJson_sessionToJson]

/-- C5: on clean stream completion the persisted assistant message
content is exactly the concatenation of the answer-channel fragments
in arrival order, with thinking-channel fragments excluded; in
particular chunks `["Hello, ", "world!"]` persist `"Hello, world!"`
and a thinking chunk `"Let me think..."` followed by answer chunk
`"Final."` persists `"Final."`. -/
theorem sendMessage_persists_answer (sess : ChatSession)
    (messages : List Message) (chunks : List GenerateResponse) (now : Int)
    (hne : messages ≠ []) :
    sendMessage sess messages ⟨chunks, none⟩ now
      = (addAIResponse sess (collectResponse chunks) now, none) ∧
    (sendMessage sess messages ⟨chunks, none⟩ now).1.Messages
      = sess.Messages ++ [⟨RoleAssistant, collectResponse chunks, now⟩] ∧
    collectResponse [⟨"", "Hello, "⟩, ⟨"", "world!"⟩] = "Hello, world!" ∧
    collectResponse [⟨"Let me think...", ""⟩, ⟨"", "Final."⟩] = "Final." := by
  have hni : messages.isEmpty = false := by
    simp [List.isEmpty_iff, hne]
  refine ⟨?_, ?_, by decide, by decide⟩
  · simp [sendMessage, hni]
  · simp [sendMessage, hni, addAIResponse]

/-- C5 witness: the two mock streams of the claim, run against a
one-message history. -/
theorem sendMessage_persists_answer_witness :
    (sendMessage ⟨"alice", [⟨RoleUser, "Hi there", 0⟩], 0, 0⟩
        [⟨RoleUser, "Hi there", 0⟩]
        ⟨[⟨"", "Hello, "⟩, ⟨"", "world!"⟩], none⟩ 1).1.Messages
      = [⟨RoleUser, "Hi there", 0⟩]
        ++ [⟨RoleAssistant, collectResponse [⟨"", "Hello, "⟩, ⟨"", "world!"⟩], 1⟩] ∧
    collectResponse [⟨"", "Hello, "⟩, ⟨"", "world!"⟩] = "Hello, world!" ∧
    collectResponse [⟨"Let me think...", ""⟩, ⟨"", "Final."⟩] = "Final." :=
  ⟨(sendMessage_persists_answer ⟨"alice", [⟨RoleUser, "Hi there", 0⟩], 0, 0⟩
      [⟨RoleUser, "Hi there", 0⟩] [⟨"", "Hello, "⟩, ⟨"", "world!"⟩] 1
      (by simp)).2.1,
   (sendMessage_persists_answer ⟨"alice", [⟨RoleUser, "Hi there", 0⟩], 0, 0⟩
      [⟨RoleUser, "Hi there", 0⟩] [⟨"", "Hello, "⟩, ⟨"", "world!"⟩] 1
      (by simp)).2.2⟩

/-- C8: when the inference stream terminates with an error, the send
path appends no assistant message — after `processUserInput` the
session holds exactly the history as it stood when the request was
issued (the user's message included, not rolled back) — and the error
comes back wrapped as a send error. -/
theorem processUserInput_stream_error (sess : ChatSession) (input e : String)
    (chunks : List GenerateResponse) (now : Int) :
    processUserInput sess input ⟨chunks, some e⟩ now
      = ({ sess with Messages := sess.Messages ++ [⟨RoleUser, input, now⟩],
                     Updated := now },
         some (ChatError.errMessageSend e)) := by
  have hni : (sess.Messages ++ [(⟨RoleUser, input, now⟩ : Message)]).isEmpty
      = false := by simp
  simp [processUserInput, sendMessage, hni]

/-- C9: the code violates the non-empty-content invariant the data
model asserts.  A clean stream whose only chunk carries thinking text
and no answer text makes `sendMessage` append an assistant message
with empty content (the `addAIResponse` path never checks emptiness,
bypassing `model.NewMessage`, which rejects exactly this with
`ErrEmptyContent`). -/
theorem sendMessage_appends_empty_content :
    sendMessage ⟨"alice", [⟨RoleUser, "Complex question", 0⟩], 0, 0⟩
        [⟨RoleUser, "Complex question", 0⟩]
        ⟨[⟨"Let me think...", ""⟩], none⟩ 1
      = (⟨"alice", [⟨RoleUser, "Complex question", 0⟩, ⟨RoleAssistant, "", 1⟩],
          0, 1⟩, none) ∧
    NewMessage RoleAssistant "" 1 = Except.error ModelError.emptyContent := by
  exact ⟨rfl, rfl⟩

/-- The UTF-8 bytes of the Go string `"Hello 🌍🌎🌏 World"` from the
repository's own `truncateContent` test table. -/
def emojiContent : List Nat :=
  [72, 101, 108, 108, 111, 32,
   240, 159, 140, 141, 240, 159, 140, 142, 240, 159, 140, 143,
   32, 87, 111, 114, 108, 100]

/-- C6: the code violates the multi-byte-preservation property.
`truncateContent` slices the first `maxLength` bytes, so truncating
the well-formed `"Hello 🌍🌎🌏 World"` at 8 cuts through the four-byte
encoding of `🌍`, leaving a dangling lead byte `240 159` before the
ellipsis: the result is no longer well-formed UTF-8, and differs from
the rune-preserving result `"Hello 🌍🌎..."` the repository's own test
expects. -/
theorem truncateContent_splits_multibyte :
    utf8Valid emojiContent = true ∧
    truncateContent emojiContent 8
      = [72, 101, 108, 108, 111, 32, 240, 159, 46, 46, 46] ∧
    utf8Valid (truncateContent emojiContent 8) = false ∧
    truncateContent emojiContent 8
      ≠ [72, 101, 108, 108, 111, 32,
         240, 159, 140, 141, 240, 159, 140, 142, 46, 46, 46] := by
  refine ⟨by decide, by decide, by decide, by decide⟩

/-- C4: the context prompt built from a non-empty history under a
non-negative limit renders at most `limit` prior messages plus the
current (last) message; the newest message is always rendered under
the current-question label; and the rendered prior window consists of
exactly the messages at positions `start, start+1, ...` up to (and
excluding) the last — every message before the window start is
excluded. -/
theorem buildContextPrompt_window (cfg : Config) (messages : List Message)
    (hne : messages ≠ []) (hlim : 0 ≤ cfg.CtxSizeLimit) :
    (((messages.take (messages.length - 1)).drop
        (calculateStartIndex (messages.length : Int) cfg.CtxSizeLimit).toNat).length : Int)
      ≤ cfg.CtxSizeLimit ∧
    buildContextPrompt cfg messages
      = "Предыдущий контекст беседы:\n"
        ++ String.join (((messages.take (messages.length - 1)).drop
            (calculateStartIndex (messages.length : Int) cfg.CtxSizeLimit).toNat).map renderTurn)
        ++ "\nТекущий вопрос: " ++ (messages.getLast hne).Content ∧
    ∀ j : Nat,
      ((messages.take (messages.length - 1)).drop
          (calculateStartIndex (messages.length : Int) cfg.CtxSizeLimit).toNat)[j]?
        = if (calculateStartIndex (messages.length : Int) cfg.CtxSizeLimit).toNat + j
              < messages.length - 1
          then messages[(calculateStartIndex (messages.length : Int) cfg.CtxSizeLimit).toNat + j]?
          else none := by
  have hL : 0 < messages.length := List.length_pos.mpr hne
  have hstart : ((calculateStartIndex (messages.length : Int) cfg.CtxSizeLimit).toNat : Int)
      = max 0 ((messages.length : Int) - cfg.CtxSizeLimit) := by
    simp only [calculateStartIndex]
    split <;> omega
  refine ⟨?_, ?_, ?_⟩
  · rw [List.length_drop, List.length_take]
    omega
  · have hlast := List.getLast?_eq_getLast_of_ne_nil hne
    simp only [buildContextPrompt, hlast]
  · intro j
    by_cases hj : (calculateStartIndex (messages.length : Int) cfg.CtxSizeLimit).toNat + j
        < messages.length - 1
    · rw [if_pos hj, List.getElem?_drop]
      exact List.getElem?_take_of_lt hj
    · rw [if_neg hj, List.getElem?_drop]
      apply List.getElem?_eq_none_iff.mpr
      rw [List.length_take]
      omega

/-- C4 witness: a five-message history under limit 2 renders only the
fourth message as prior context and the fifth under the
current-question label; the first three are excluded. -/
theorem buildContextPrompt_window_witness :
    buildContextPrompt ⟨"chats", ".json", 2⟩
        [⟨RoleUser, "q1", 0⟩, ⟨RoleAssistant, "a1", 1⟩, ⟨RoleUser, "q2", 2⟩,
         ⟨RoleAssistant, "a2", 3⟩, ⟨RoleUser, "q3", 4⟩]
      = "Предыдущий контекст беседы:\n"
        ++ String.join ([(⟨RoleAssistant, "a2", 3⟩ : Message)].map renderTurn)
        ++ "\nТекущий вопрос: " ++ "q3" := by
  have h := (buildContextPrompt_window ⟨"chats", ".json", 2⟩
      [⟨RoleUser, "q1", 0⟩, ⟨RoleAssistant, "a1", 1⟩, ⟨RoleUser, "q2", 2⟩,
       ⟨RoleAssistant, "a2", 3⟩, ⟨RoleUser, "q3", 4⟩]
      (by simp) (by decide)).2.1
  simpa using h

end AgentPlayground
